import Mathlib

/-!
Verification of the tic-tac-toe repository's board model, match state
machine, and client-side guards against its natural-language specification.

The board evaluator `checkWinCondition` is translated from
src/tests/server/match.test.ts (the test-suite copy of the server's
function).  The frontend enums and message handling are translated from
src/frontend/src/types/game.ts, the GameBoard component and the
useGameState hook.  The server match handler (nakama server/src/match.ts)
is not part of the source tree; the operations `apply`, `submitMove`,
`checkTimeout` and the result-sink behaviour are modelled from the spec,
as marked on each definition.
-/

namespace TicTacToe

/-- Player symbol, game.ts: `type PlayerSymbol = 'X' | 'O'`. -/
inductive PlayerSymbol where
  | X
  | O
deriving DecidableEq, Repr

/-- Cell value, game.ts: `type CellValue = '' | PlayerSymbol`. -/
inductive CellValue where
  | empty
  | X
  | O
deriving DecidableEq, Repr

/-- The cell value written by a symbol. -/
def symToCell : PlayerSymbol → CellValue
  | .X => .X
  | .O => .O

/-- The opposite symbol. -/
def other : PlayerSymbol → PlayerSymbol
  | .X => .O
  | .O => .X

/-- Board state, game.ts / match.test.ts: a 3x3 tuple of cell values. -/
abbrev Board := Fin 3 → Fin 3 → CellValue

/-- A row literal. -/
def mkRow (a b c : CellValue) : Fin 3 → CellValue := ![a, b, c]

/-- A board literal from three rows. -/
def mkBoard (r0 r1 r2 : Fin 3 → CellValue) : Board := ![r0, r1, r2]

/-- `board[i]` for a dynamic (unchecked) index, as in JavaScript:
rows 0..2 exist, any other index yields `undefined` (here `none`). -/
def rowAt (board : Board) (i : Nat) : Option (Fin 3 → CellValue) :=
  if h : i < 3 then some (board ⟨i, h⟩) else none

/-- `row[j]` for a dynamic (unchecked) index, as in JavaScript:
an out-of-range read yields `undefined` (here `none`), not an error. -/
def cellAt (row : Fin 3 → CellValue) (j : Nat) : Option CellValue :=
  if h : j < 3 then some (row ⟨j, h⟩) else none

/-- Return type of `checkWinCondition`:
`{ won: boolean; winningCells?: Array<{row, col}> }`. -/
structure CheckResult where
  won : Bool
  winningCells : Option (List (Nat × Nat))
deriving DecidableEq, Repr

/-- `checkWinCondition` from src/tests/server/match.test.ts, lines 19-74.
`lastRow`/`lastCol` are unchecked JavaScript numbers.  The row check reads
`board[lastRow][0..2]`, which throws when `board[lastRow]` is undefined
(modelled by returning `none`).  The column check reads
`board[0..2][lastCol]`, where an out-of-range `lastCol` yields `undefined`,
which compares unequal to the symbol.  The diagonal checks are guarded by
`lastRow === lastCol` and `lastRow + lastCol === 2` and read only fixed
in-bounds cells. -/
def checkWinCondition (board : Board) (lastRow lastCol : Nat)
    (symbol : PlayerSymbol) : Option CheckResult :=
  match rowAt board lastRow with
  | none => none
  | some row =>
    if row 0 = symToCell symbol ∧ row 1 = symToCell symbol ∧
        row 2 = symToCell symbol then
      some { won := true,
             winningCells := some [(lastRow, 0), (lastRow, 1), (lastRow, 2)] }
    else if cellAt (board 0) lastCol = some (symToCell symbol) ∧
        cellAt (board 1) lastCol = some (symToCell symbol) ∧
        cellAt (board 2) lastCol = some (symToCell symbol) then
      some { won := true,
             winningCells := some [(0, lastCol), (1, lastCol), (2, lastCol)] }
    else if lastRow = lastCol ∧ board 0 0 = symToCell symbol ∧
        board 1 1 = symToCell symbol ∧ board 2 2 = symToCell symbol then
      some { won := true, winningCells := some [(0, 0), (1, 1), (2, 2)] }
    else if lastRow + lastCol = 2 ∧ board 0 2 = symToCell symbol ∧
        board 1 1 = symToCell symbol ∧ board 2 0 = symToCell symbol then
      some { won := true, winningCells := some [(0, 2), (1, 1), (2, 0)] }
    else
      some { won := false, winningCells := none }

/-- `checkWinCondition` specialised to in-bounds coordinates (the shape the
server always calls it with): same checks, same order, same cells. -/
def checkWin (board : Board) (lastRow lastCol : Fin 3)
    (symbol : PlayerSymbol) : CheckResult :=
  if board lastRow 0 = symToCell symbol ∧ board lastRow 1 = symToCell symbol ∧
      board lastRow 2 = symToCell symbol then
    { won := true,
      winningCells := some [(lastRow.val, 0), (lastRow.val, 1), (lastRow.val, 2)] }
  else if board 0 lastCol = symToCell symbol ∧ board 1 lastCol = symToCell symbol ∧
      board 2 lastCol = symToCell symbol then
    { won := true,
      winningCells := some [(0, lastCol.val), (1, lastCol.val), (2, lastCol.val)] }
  else if lastRow = lastCol ∧ board 0 0 = symToCell symbol ∧
      board 1 1 = symToCell symbol ∧ board 2 2 = symToCell symbol then
    { won := true, winningCells := some [(0, 0), (1, 1), (2, 2)] }
  else if lastRow.val + lastCol.val = 2 ∧ board 0 2 = symToCell symbol ∧
      board 1 1 = symToCell symbol ∧ board 2 0 = symToCell symbol then
    { won := true, winningCells := some [(0, 2), (1, 1), (2, 0)] }
  else
    { won := false, winningCells := none }

/-! ### Lines of the board -/

/-- A line: the list of its three coordinates. -/
abbrev Line := List (Fin 3 × Fin 3)

/-- The row through row-index `r`. -/
def rowLine (r : Fin 3) : Line := [(r, 0), (r, 1), (r, 2)]

/-- The column through column-index `c`. -/
def colLine (c : Fin 3) : Line := [(0, c), (1, c), (2, c)]

/-- The main diagonal. -/
def mainDiagLine : Line := [(0, 0), (1, 1), (2, 2)]

/-- The anti-diagonal. -/
def antiDiagLine : Line := [(0, 2), (1, 1), (2, 0)]

/-- All 8 lines of the 3x3 board. -/
def allLines : List Line :=
  [rowLine 0, rowLine 1, rowLine 2, colLine 0, colLine 1, colLine 2,
   mainDiagLine, antiDiagLine]

/-- A line is complete for a symbol when all three of its cells hold it. -/
def lineComplete (board : Board) (symbol : PlayerSymbol) (l : Line) : Bool :=
  l.all fun p => board p.1 p.2 == symToCell symbol

/-- Built from the spec's words for the refinement comparison: the naive
evaluator that scans all 8 lines of the board for a complete line of the
symbol. -/
def allLinesWin (board : Board) (symbol : PlayerSymbol) : Bool :=
  allLines.any (lineComplete board symbol)

/-- Built from the spec's words: the lines through (lastRow, lastCol) in the
order the spec prescribes — its row, its column, the main diagonal only if
`lastRow = lastCol`, the anti-diagonal only if `lastRow + lastCol = 2`. -/
def orderedLines (lastRow lastCol : Fin 3) : List Line :=
  [rowLine lastRow, colLine lastCol] ++
    (if lastRow = lastCol then [mainDiagLine] else []) ++
    (if lastRow.val + lastCol.val = 2 then [antiDiagLine] else [])

/-- Coordinates of a line as plain numbers. -/
def coordsOf (l : Line) : List (Nat × Nat) :=
  l.map fun p => (p.1.val, p.2.val)

/-- Built from the spec's words for the order comparison: return the first
complete line among the ordered candidate lines, with its coordinates. -/
def firstLineWin (board : Board) (lastRow lastCol : Fin 3)
    (symbol : PlayerSymbol) : CheckResult :=
  match (orderedLines lastRow lastCol).find? (lineComplete board symbol) with
  | some l => { won := true, winningCells := some (coordsOf l) }
  | none => { won := false, winningCells := none }

/-! ### Board model operations (spec §4.1) -/

/-- Writing one cell of a board. -/
def setCell (board : Board) (r c : Fin 3) (v : CellValue) : Board :=
  fun i j => if i = r ∧ j = c then v else board i j

/-- All 9 cells are occupied. -/
def boardFull (board : Board) : Bool :=
  decide (∀ i : Fin 3, ∀ j : Fin 3, board i j ≠ CellValue.empty)

/-- Move/event rejections (spec §7). -/
inductive Rejection where
  | OutOfBounds
  | CellOccupied
  | NotYourTurn
  | MatchAlreadyFinished
deriving DecidableEq, Repr

/-- Modelled from the spec: `apply` of the Board Model (§4.1) in the missing
server match.ts — `OutOfBounds` if row/col is not in [0,2], `CellOccupied`
if the target cell is non-empty, otherwise the board with exactly that cell
set. -/
def apply (board : Board) (row col : Nat) (symbol : PlayerSymbol) :
    Except Rejection Board :=
  if hr : row < 3 then
    if hc : col < 3 then
      if board ⟨row, hr⟩ ⟨col, hc⟩ ≠ CellValue.empty then
        Except.error Rejection.CellOccupied
      else
        Except.ok (setCell board ⟨row, hr⟩ ⟨col, hc⟩ (symToCell symbol))
    else Except.error Rejection.OutOfBounds
  else Except.error Rejection.OutOfBounds

/-- Outcome of `evaluate` (spec §4.1): Win(line), Draw or Ongoing. -/
inductive EvalResult where
  | win (cells : List (Nat × Nat))
  | draw
  | ongoing
deriving DecidableEq, Repr

/-- Modelled from the spec: `evaluate` of the Board Model (§4.1) in the
missing server match.ts — win detection by the source `checkWinCondition`
from the just-played cell, then Draw if all 9 cells are occupied, else
Ongoing. -/
def evaluate (board : Board) (lastRow lastCol : Nat) (symbol : PlayerSymbol) :
    Option EvalResult :=
  match checkWinCondition board lastRow lastCol symbol with
  | none => none
  | some res =>
    if res.won then some (EvalResult.win (res.winningCells.getD []))
    else if boardFull board then some EvalResult.draw
    else some EvalResult.ongoing

/-! ### Frontend types (game.ts) and the match state machine -/

/-- Lifecycle phase, game.ts `enum MatchState`. -/
inductive MatchState where
  | WAITING
  | PLAYING
  | FINISHED
  | ABANDONED
deriving DecidableEq, Repr

/-- Game result, game.ts `enum GameResult` (lines 29-34). -/
inductive GameResult where
  | X_WINS
  | O_WINS
  | DRAW
  | ONGOING
deriving DecidableEq, Repr

/-- Player information, game.ts `interface Player`. -/
structure Player where
  userId : String
  username : String
  symbol : PlayerSymbol
  present : Bool
deriving DecidableEq, Repr

/-- The match state snapshot, game.ts `interface GameState` (mirroring the
server's state record, spec §3). -/
structure GameState where
  board : Board
  currentPlayer : PlayerSymbol
  players : PlayerSymbol → Option Player
  state : MatchState
  result : GameResult
  moveCount : Nat
  lastMoveTime : Int
  winnerCells : Option (List (Nat × Nat))

/-- The winner's result value. -/
def winResultOf : PlayerSymbol → GameResult
  | .X => .X_WINS
  | .O => .O_WINS

/-- Terminal result tag delivered to the Result Sink (spec §4.3/§6):
win by completed line, win by forfeit, draw, abandonment. -/
inductive ResultTag where
  | WinByLine
  | WinByForfeit
  | Draw
  | Abandoned
deriving DecidableEq, Repr

/-- Modelled from the spec: the one terminal call to the Result Sink (§6). -/
structure SinkCall where
  tag : ResultTag
  winner : Option PlayerSymbol
deriving DecidableEq, Repr

/-- Result of one state-machine step as the Match Session observes it: the
next state, the rejection reported (only) to the submitting participant if
any, the snapshot broadcast to all participants if the state changed, and
the Result Sink call if this step was the terminal transition. -/
structure StepResult where
  state : GameState
  reject : Option Rejection
  broadcast : Option GameState
  sink : Option SinkCall

/-- Modelled from the spec: `submitMove` of the Match State Machine (§4.2)
in the missing server match.ts.  A terminal phase rejects with
`MatchAlreadyFinished` (§7, §8); a non-Playing phase or an off-turn symbol
rejects with `NotYourTurn`; then the Board Model's `apply` may reject; an
accepted move is applied, the move counter incremented, the board evaluated
from the just-played cell, and `lastMoveTime` set to `now`.  Rejections are
not broadcast; the terminal transition carries the one Result Sink call.
`apply` succeeding ensures in-bounds coordinates, so `evaluate` is defined
and the `.getD` default is dead code. -/
def submitMove (st : GameState) (sym : PlayerSymbol) (row col : Nat)
    (now : Int) : StepResult :=
  if st.state = MatchState.FINISHED ∨ st.state = MatchState.ABANDONED then
    { state := st, reject := some Rejection.MatchAlreadyFinished,
      broadcast := none, sink := none }
  else if st.state ≠ MatchState.PLAYING ∨ sym ≠ st.currentPlayer then
    { state := st, reject := some Rejection.NotYourTurn,
      broadcast := none, sink := none }
  else
    match apply st.board row col sym with
    | Except.error e =>
      { state := st, reject := some e, broadcast := none, sink := none }
    | Except.ok b2 =>
      match (evaluate b2 row col sym).getD EvalResult.ongoing with
      | EvalResult.win cells =>
        let st2 : GameState :=
          { st with board := b2, moveCount := st.moveCount + 1,
                    state := MatchState.FINISHED, result := winResultOf sym,
                    winnerCells := some cells, lastMoveTime := now }
        { state := st2, reject := none, broadcast := some st2,
          sink := some { tag := ResultTag.WinByLine, winner := some sym } }
      | EvalResult.draw =>
        let st2 : GameState :=
          { st with board := b2, moveCount := st.moveCount + 1,
                    state := MatchState.FINISHED, result := GameResult.DRAW,
                    lastMoveTime := now }
        { state := st2, reject := none, broadcast := some st2,
          sink := some { tag := ResultTag.Draw, winner := none } }
      | EvalResult.ongoing =>
        let st2 : GameState :=
          { st with board := b2, moveCount := st.moveCount + 1,
                    currentPlayer := other sym, lastMoveTime := now }
        { state := st2, reject := none, broadcast := some st2, sink := none }

/-- Modelled from the spec: `checkTimeout` of the Match State Machine (§4.2)
in the missing server match.ts.  A terminal phase rejects with
`MatchAlreadyFinished` (§8); if the phase is Playing and the deadline has
elapsed, the participant on turn forfeits: phase Finished, result the other
symbol's win, no winning line, tagged `WinByForfeit` for the Result Sink;
otherwise a no-op. -/
def checkTimeout (st : GameState) (now deadlineSeconds : Int) : StepResult :=
  if st.state = MatchState.FINISHED ∨ st.state = MatchState.ABANDONED then
    { state := st, reject := some Rejection.MatchAlreadyFinished,
      broadcast := none, sink := none }
  else if st.state = MatchState.PLAYING ∧
      now - st.lastMoveTime ≥ deadlineSeconds then
    let st2 : GameState :=
      { st with state := MatchState.FINISHED,
                result := winResultOf (other st.currentPlayer),
                winnerCells := none }
    { state := st2, reject := none, broadcast := some st2,
      sink := some { tag := ResultTag.WinByForfeit,
                     winner := some (other st.currentPlayer) } }
  else
    { state := st, reject := none, broadcast := none, sink := none }

/-! ### Client: socket message handling (useGameState) -/

/-- Server message types, game.ts `enum ServerMessageType`. -/
inductive ServerMessageType where
  | GAME_STATE
  | MOVE_ACCEPTED
  | MOVE_REJECTED
  | GAME_OVER
  | PLAYER_JOINED
  | PLAYER_LEFT
  | ERROR
  | TIMEOUT_WARNING
deriving DecidableEq, Repr

/-- The `data` field of a server message: a game state, a string, or absent
(game.ts `ServerMessage`). -/
inductive MessageData where
  | stateData (gs : GameState)
  | textData (s : String)
  | noData

/-- Server message structure, game.ts `interface ServerMessage`. -/
structure ServerMessage where
  type : ServerMessageType
  data : MessageData

/-- The client state held by the useGameState hook: the last received game
state and the error string. -/
structure ClientState where
  gameState : Option GameState
  error : Option String

/-- `handleMessage` from the useGameState hook: state-bearing message types
replace the held game state (with a deep copy, the identity here) and clear
the error; `MOVE_REJECTED` and `ERROR` with a string payload set only the
error; other messages leave the state alone. -/
def handleMessage (cs : ClientState) (msg : ServerMessage) : ClientState :=
  match msg.type with
  | .GAME_STATE | .MOVE_ACCEPTED | .PLAYER_JOINED | .GAME_OVER =>
    match msg.data with
    | .stateData gs => { gameState := some gs, error := none }
    | _ => cs
  | .MOVE_REJECTED =>
    match msg.data with
    | .textData s => { cs with error := some s }
    | _ => cs
  | .ERROR =>
    match msg.data with
    | .textData s => { cs with error := some s }
    | _ => cs
  | .TIMEOUT_WARNING => cs
  | .PLAYER_LEFT => cs

/-! ### Client: GameBoard cell-click guard -/

/-- JavaScript strict equality between `currentPlayer?.userId` (a string or
`undefined`) and `currentUserId` (a string or `null`): true only when both
are strings and equal — `undefined === null` is false. -/
def jsStrictEq : Option String → Option String → Bool
  | some a, some b => a == b
  | _, _ => false

/-- `isMyTurn` from the GameBoard component:
`currentPlayer?.userId === currentUserId && isPlaying`. -/
def isMyTurn (gs : GameState) (currentUserId : Option String) : Bool :=
  jsStrictEq ((gs.players gs.currentPlayer).map Player.userId) currentUserId
    && (gs.state == MatchState.PLAYING)

/-- `handleCellClick` from the GameBoard component: returns whether
`onCellClick` is invoked — blocked when disabled, when it is not the
clicking user's turn, or when the cell is already filled. -/
def handleCellClick (gs : GameState) (currentUserId : Option String)
    (disabled : Bool) (row col : Fin 3) : Bool :=
  if disabled then false
  else if !(isMyTurn gs currentUserId) then false
  else if gs.board row col ≠ CellValue.empty then false
  else true

/-! ### Concrete boards and states for the spec's scenarios -/

/-- The all-empty board. -/
def emptyBoard : Board := fun _ _ => CellValue.empty

/-- Horizontal-win scenario board after X plays (0,2):
`[[X,X,X],[O,O,""],["","",""]]`. -/
def hwinBoard : Board :=
  mkBoard (mkRow .X .X .X) (mkRow .O .O .empty) (mkRow .empty .empty .empty)

/-- A board with a complete X line that does not pass through (0,2),
although (0,2) holds X: `[["","",X],[X,X,X],["","",""]]`. -/
def strayLineBoard : Board :=
  mkBoard (mkRow .empty .empty .X) (mkRow .X .X .X)
    (mkRow .empty .empty .empty)

/-- Draw scenario board before O plays (2,2):
`[[X,O,X],[O,O,X],[O,X,""]]`. -/
def drawBoardPre : Board :=
  mkBoard (mkRow .X .O .X) (mkRow .O .O .X) (mkRow .O .X .empty)

/-- Draw scenario board after O plays (2,2). -/
def drawBoardPost : Board :=
  mkBoard (mkRow .X .O .X) (mkRow .O .O .X) (mkRow .O .X .O)

/-- Horizontal-win scenario board before X plays (0,2):
`[[X,X,""],[O,O,""],["","",""]]`. -/
def hwinBoardPre : Board :=
  mkBoard (mkRow .X .X .empty) (mkRow .O .O .empty)
    (mkRow .empty .empty .empty)

/-- A rejection message text used in demonstrations. -/
def demoText : String := "Cell occupied"

/-- A demonstration X player. -/
def demoPlayerX : Player :=
  { userId := "player-x", username := "player-x", symbol := PlayerSymbol.X,
    present := true }

/-- A demonstration O player. -/
def demoPlayerO : Player :=
  { userId := "player-o", username := "player-o", symbol := PlayerSymbol.O,
    present := true }

/-- The player assignment of the demonstration match. -/
def demoPlayers : PlayerSymbol → Option Player
  | .X => some demoPlayerX
  | .O => some demoPlayerO

/-- A Playing state on the empty board, X to move. -/
def demoPlaying : GameState :=
  { board := emptyBoard, currentPlayer := PlayerSymbol.X,
    players := demoPlayers, state := MatchState.PLAYING,
    result := GameResult.ONGOING, moveCount := 0, lastMoveTime := 0,
    winnerCells := none }

/-- A Playing state on the draw scenario board, O to move. -/
def demoDrawPending : GameState :=
  { board := drawBoardPre, currentPlayer := PlayerSymbol.O,
    players := demoPlayers, state := MatchState.PLAYING,
    result := GameResult.ONGOING, moveCount := 8, lastMoveTime := 0,
    winnerCells := none }

/-- A Finished state. -/
def demoFinished : GameState :=
  { board := hwinBoard, currentPlayer := PlayerSymbol.X,
    players := demoPlayers, state := MatchState.FINISHED,
    result := GameResult.X_WINS, moveCount := 5, lastMoveTime := 0,
    winnerCells := some [(0, 0), (0, 1), (0, 2)] }

/-- A Playing state with O on turn, used by the timeout scenario. -/
def demoPlayingO : GameState :=
  { board := hwinBoard, currentPlayer := PlayerSymbol.O,
    players := demoPlayers, state := MatchState.PLAYING,
    result := GameResult.ONGOING, moveCount := 4, lastMoveTime := 100,
    winnerCells := none }

/-! ### Helper lemmas -/

/-- On in-bounds coordinates the unchecked function returns exactly the
in-bounds specialisation. -/
lemma checkWinCondition_eq_checkWin (board : Board) (r c : Fin 3)
    (symbol : PlayerSymbol) :
    checkWinCondition board r.val c.val symbol =
      some (checkWin board r c symbol) := by
  unfold checkWinCondition checkWin rowAt cellAt
  rw [dif_pos r.isLt]
  simp only [Fin.eta, dif_pos c.isLt, Option.some.injEq, Fin.val_inj]
  split_ifs <;> rfl

/-- The opposite symbol writes a different cell value. -/
lemma symToCell_other_ne (s : PlayerSymbol) :
    symToCell (other s) ≠ symToCell s := by
  cases s <;> decide

/-- A row's completeness, unfolded. -/
lemma lineComplete_rowLine (board : Board) (s : PlayerSymbol) (r : Fin 3) :
    lineComplete board s (rowLine r) = true ↔
      (board r 0 = symToCell s ∧ board r 1 = symToCell s ∧
       board r 2 = symToCell s) := by
  simp [lineComplete, rowLine]

/-- A column's completeness, unfolded. -/
lemma lineComplete_colLine (board : Board) (s : PlayerSymbol) (c : Fin 3) :
    lineComplete board s (colLine c) = true ↔
      (board 0 c = symToCell s ∧ board 1 c = symToCell s ∧
       board 2 c = symToCell s) := by
  simp [lineComplete, colLine]

/-- The main diagonal's completeness, unfolded. -/
lemma lineComplete_mainDiag (board : Board) (s : PlayerSymbol) :
    lineComplete board s mainDiagLine = true ↔
      (board 0 0 = symToCell s ∧ board 1 1 = symToCell s ∧
       board 2 2 = symToCell s) := by
  simp [lineComplete, mainDiagLine]

/-- The anti-diagonal's completeness, unfolded. -/
lemma lineComplete_antiDiag (board : Board) (s : PlayerSymbol) :
    lineComplete board s antiDiagLine = true ↔
      (board 0 2 = symToCell s ∧ board 1 1 = symToCell s ∧
       board 2 0 = symToCell s) := by
  simp [lineComplete, antiDiagLine]

/-- The won verdict of the source evaluator, as a disjunction over the
candidate lines through the last move. -/
lemma checkWin_won_iff (board : Board) (r c : Fin 3) (s : PlayerSymbol) :
    (checkWin board r c s).won = true ↔
      (lineComplete board s (rowLine r) = true ∨
       lineComplete board s (colLine c) = true ∨
       (r = c ∧ lineComplete board s mainDiagLine = true) ∨
       (r.val + c.val = 2 ∧ lineComplete board s antiDiagLine = true)) := by
  rw [lineComplete_rowLine, lineComplete_colLine, lineComplete_mainDiag,
    lineComplete_antiDiag]
  unfold checkWin
  split_ifs with h1 h2 h3 h4
  · simpa using Or.inl h1
  · simpa using Or.inr (Or.inl h2)
  · simpa using Or.inr (Or.inr (Or.inl h3))
  · simpa using Or.inr (Or.inr (Or.inr h4))
  · simp only [Bool.false_eq_true, false_iff]
    rintro (h | h | h | h)
    · exact h1 h
    · exact h2 h
    · exact h3 h
    · exact h4 h

/-- The naive all-lines scan succeeds exactly when some line is complete. -/
lemma allLinesWin_iff (board : Board) (s : PlayerSymbol) :
    allLinesWin board s = true ↔
      ∃ l ∈ allLines, lineComplete board s l = true := by
  simp [allLinesWin, List.any_eq_true]

/-- Every complete line's cells hold the symbol. -/
lemma lineComplete_mem (board : Board) (s : PlayerSymbol) (l : Line)
    (h : lineComplete board s l = true) {p : Fin 3 × Fin 3} (hp : p ∈ l) :
    board p.1 p.2 = symToCell s := by
  simp only [lineComplete, List.all_eq_true, beq_iff_eq] at h
  exact h p hp

/-- The last-move cell lies on its row. -/
lemma mem_rowLine (r c : Fin 3) : (r, c) ∈ rowLine r := by
  fin_cases c <;> simp [rowLine]

/-- The last-move cell lies on its column. -/
lemma mem_colLine (r c : Fin 3) : (r, c) ∈ colLine c := by
  fin_cases r <;> simp [colLine]

/-- If the last move is on the main diagonal, its cell lies on it. -/
lemma mem_mainDiag (r c : Fin 3) (h : r = c) : (r, c) ∈ mainDiagLine := by
  subst h
  fin_cases r <;> simp [mainDiagLine]

/-- If the last move is on the anti-diagonal, its cell lies on it. -/
lemma mem_antiDiag (r c : Fin 3) (h : r.val + c.val = 2) :
    (r, c) ∈ antiDiagLine := by
  fin_cases r <;> fin_cases c <;> simp_all [antiDiagLine]

/-- A line of the board containing the cell (r, c) is the row through r,
the column through c, or a diagonal whose guard holds at (r, c). -/
lemma line_through_cases (r c : Fin 3) :
    ∀ l ∈ allLines, (r, c) ∈ l →
      (l = rowLine r ∨ l = colLine c ∨
       (r = c ∧ l = mainDiagLine) ∨
       (r.val + c.val = 2 ∧ l = antiDiagLine)) := by
  fin_cases r <;> fin_cases c <;> decide

/-- Each candidate line of the source evaluator is a line of the board. -/
lemma candidate_mem_allLines (r c : Fin 3) :
    rowLine r ∈ allLines ∧ colLine c ∈ allLines ∧
      mainDiagLine ∈ allLines ∧ antiDiagLine ∈ allLines := by
  fin_cases r <;> fin_cases c <;> decide

/-- Coordinates of a row. -/
lemma coordsOf_rowLine (r : Fin 3) :
    coordsOf (rowLine r) = [(r.val, 0), (r.val, 1), (r.val, 2)] := by
  simp [coordsOf, rowLine]

/-- Coordinates of a column. -/
lemma coordsOf_colLine (c : Fin 3) :
    coordsOf (colLine c) = [(0, c.val), (1, c.val), (2, c.val)] := by
  simp [coordsOf, colLine]

/-- Coordinates of the main diagonal. -/
lemma coordsOf_mainDiag : coordsOf mainDiagLine = [(0, 0), (1, 1), (2, 2)] := by
  simp [coordsOf, mainDiagLine]

/-- Coordinates of the anti-diagonal. -/
lemma coordsOf_antiDiag : coordsOf antiDiagLine = [(0, 2), (1, 1), (2, 0)] := by
  simp [coordsOf, antiDiagLine]

/-- The ordered first-complete-line evaluator, unfolded to its decision
chain. -/
lemma firstLineWin_eq (board : Board) (r c : Fin 3) (s : PlayerSymbol) :
    firstLineWin board r c s =
      if lineComplete board s (rowLine r) = true then
        { won := true, winningCells := some (coordsOf (rowLine r)) }
      else if lineComplete board s (colLine c) = true then
        { won := true, winningCells := some (coordsOf (colLine c)) }
      else if r = c ∧ lineComplete board s mainDiagLine = true then
        { won := true, winningCells := some (coordsOf mainDiagLine) }
      else if r.val + c.val = 2 ∧ lineComplete board s antiDiagLine = true then
        { won := true, winningCells := some (coordsOf antiDiagLine) }
      else
        { won := false, winningCells := none } := by
  unfold firstLineWin orderedLines
  by_cases hd : r = c <;> by_cases ha : r.val + c.val = 2 <;>
    simp only [hd, ha, if_true, if_false, ite_true, ite_false,
      List.cons_append, List.nil_append, List.append_nil] <;>
    cases h1 : lineComplete board s (rowLine r) <;>
    cases h2 : lineComplete board s (colLine c) <;>
    simp_all [List.find?_cons_of_pos, List.find?_cons_of_neg, List.find?] <;>
    cases h3 : lineComplete board s mainDiagLine <;>
    cases h4 : lineComplete board s antiDiagLine <;>
    simp_all [List.find?]

/-- The source evaluator agrees with the ordered first-complete-line
evaluator of the spec. -/
lemma checkWin_eq_firstLineWin (board : Board) (r c : Fin 3)
    (s : PlayerSymbol) :
    checkWin board r c s = firstLineWin board r c s := by
  rw [firstLineWin_eq]
  simp only [lineComplete_rowLine, lineComplete_colLine,
    lineComplete_mainDiag, lineComplete_antiDiag, coordsOf_rowLine,
    coordsOf_colLine, coordsOf_mainDiag, coordsOf_antiDiag]
  unfold checkWin
  split_ifs <;> rfl

/-- Writing a cell leaves every other cell unchanged. -/
lemma setCell_other_cell (board : Board) (r c : Fin 3) (v : CellValue)
    {i j : Fin 3} (h : ¬(i = r ∧ j = c)) : setCell board r c v i j = board i j := by
  simp [setCell, h]

/-- `apply` rejects out-of-range coordinates. -/
lemma apply_oob (board : Board) (row col : Nat) (s : PlayerSymbol)
    (h : ¬(row ≤ 2 ∧ col ≤ 2)) :
    apply board row col s = Except.error Rejection.OutOfBounds := by
  unfold apply
  split_ifs with hr hc hocc
  · exact absurd ⟨by omega, by omega⟩ h
  · exact absurd ⟨by omega, by omega⟩ h
  · rfl
  · rfl

/-- `apply` rejects an occupied target cell. -/
lemma apply_occupied (board : Board) (r c : Fin 3) (s : PlayerSymbol)
    (h : board r c ≠ CellValue.empty) :
    apply board r.val c.val s = Except.error Rejection.CellOccupied := by
  unfold apply
  rw [dif_pos r.isLt, dif_pos c.isLt]
  simp only [Fin.eta]
  rw [if_pos h]

/-- `apply` on an empty target cell writes exactly that cell. -/
lemma apply_empty (board : Board) (r c : Fin 3) (s : PlayerSymbol)
    (h : board r c = CellValue.empty) :
    apply board r.val c.val s =
      Except.ok (setCell board r c (symToCell s)) := by
  unfold apply
  rw [dif_pos r.isLt, dif_pos c.isLt]
  simp only [Fin.eta]
  rw [if_neg (by simp [h])]

/-- Every step of `submitMove` is either a rejection that returns the state
unchanged with no broadcast and no sink call, or is not a rejection. -/
lemma submitMove_shape (st : GameState) (sym : PlayerSymbol) (row col : Nat)
    (now : Int) :
    (∃ e, submitMove st sym row col now =
       { state := st, reject := some e, broadcast := none, sink := none }) ∨
    (submitMove st sym row col now).reject = none := by
  unfold submitMove
  split_ifs with h1 h2
  · exact Or.inl ⟨_, rfl⟩
  · exact Or.inl ⟨_, rfl⟩
  · split
    · exact Or.inl ⟨_, rfl⟩
    · split <;> exact Or.inr rfl

/-- Every step of `checkTimeout` is either a rejection that returns the
state unchanged with no broadcast and no sink call, or is not a
rejection. -/
lemma checkTimeout_shape (st : GameState) (now deadline : Int) :
    (∃ e, checkTimeout st now deadline =
       { state := st, reject := some e, broadcast := none, sink := none }) ∨
    (checkTimeout st now deadline).reject = none := by
  unfold checkTimeout
  split_ifs with h1 h2
  · exact Or.inl ⟨_, rfl⟩
  · exact Or.inr rfl
  · exact Or.inr rfl

/-- Completeness of a line avoiding the written cell is unchanged. -/
lemma lineComplete_setCell_not_mem (board : Board) (r c : Fin 3)
    (v : CellValue) (s : PlayerSymbol) (l : Line) (h : (r, c) ∉ l) :
    lineComplete (setCell board r c v) s l = lineComplete board s l := by
  induction l with
  | nil => rfl
  | cons p l ih =>
    simp only [List.mem_cons, not_or] at h
    simp only [lineComplete, List.all_cons] at *
    rw [ih h.2, setCell_other_cell]
    intro hij
    exact h.1 (by cases p; simp_all)

/-! ### Claim theorems -/

/-- C1: For every 3x3 board, coordinates in [0,2] and symbol, the win
evaluator checks the row through the last move, then its column, then the
main diagonal only if lastRow = lastCol, then the anti-diagonal only if
lastRow + lastCol = 2, and returns the first complete line of the symbol
with exactly its three coordinates; in the horizontal-win scenario, board
[[X,X,""],[O,O,""],["","",""]] after X plays (0,2) yields a win with
winningCells [(0,0),(0,1),(0,2)]. -/
theorem claim_c1_win_evaluation_order :
    (∀ (board : Board) (r c : Fin 3) (s : PlayerSymbol),
       checkWinCondition board r.val c.val s =
         some (firstLineWin board r c s)) ∧
    checkWinCondition hwinBoard 0 2 PlayerSymbol.X =
      some { won := true, winningCells := some [(0, 0), (0, 1), (0, 2)] } := by
  constructor
  · intro board r c s
    rw [checkWinCondition_eq_checkWin, checkWin_eq_firstLineWin]
  · decide

/-- C9: For every board and coordinates lastRow, lastCol in [0,2] (a
precondition the function itself never checks), checkWinCondition performs
only in-bounds board indexing and is total: its none branch (the modelled
JavaScript error on an undefined row) is unreachable, and every column read
is defined. -/
theorem claim_c9_in_bounds_total (board : Board) (r c : Nat)
    (hr : r ≤ 2) (hc : c ≤ 2) (s : PlayerSymbol) :
    (checkWinCondition board r c s).isSome = true ∧
    ∀ i : Fin 3, (cellAt (board i) c).isSome = true := by
  have hr3 : r < 3 := by omega
  have hc3 : c < 3 := by omega
  constructor
  · rw [checkWinCondition_eq_checkWin board ⟨r, hr3⟩ ⟨c, hc3⟩ s]
    rfl
  · intro i
    simp [cellAt, hc3]

/-- C9 witness: the totality claim at board coordinates (1, 2). -/
theorem claim_c9_witness :
    (checkWinCondition emptyBoard 1 2 PlayerSymbol.X).isSome = true ∧
    ∀ i : Fin 3, (cellAt (emptyBoard i) 2).isSome = true :=
  claim_c9_in_bounds_total emptyBoard 1 2 (by decide) (by decide)
    PlayerSymbol.X

/-- C3: For every board whose cell (r, c) holds the just-played symbol,
evaluating from (r, c) for the opposite symbol never reports a win. -/
theorem claim_c3_no_win_for_other (board : Board) (r c : Fin 3)
    (s : PlayerSymbol) (h : board r c = symToCell s) :
    checkWinCondition board r.val c.val (other s) =
      some { won := false, winningCells := none } := by
  rw [checkWinCondition_eq_checkWin]
  have hcell : board r c ≠ symToCell (other s) := by
    rw [h]
    exact fun habs => symToCell_other_ne s habs.symm
  have hrow : ¬(board r 0 = symToCell (other s) ∧
      board r 1 = symToCell (other s) ∧ board r 2 = symToCell (other s)) :=
    fun hcond => hcell (lineComplete_mem board (other s) (rowLine r)
      ((lineComplete_rowLine board (other s) r).mpr hcond) (mem_rowLine r c))
  have hcol : ¬(board 0 c = symToCell (other s) ∧
      board 1 c = symToCell (other s) ∧ board 2 c = symToCell (other s)) :=
    fun hcond => hcell (lineComplete_mem board (other s) (colLine c)
      ((lineComplete_colLine board (other s) c).mpr hcond) (mem_colLine r c))
  have hmain : ¬(r = c ∧ board 0 0 = symToCell (other s) ∧
      board 1 1 = symToCell (other s) ∧ board 2 2 = symToCell (other s)) :=
    fun hcond => hcell (lineComplete_mem board (other s) mainDiagLine
      ((lineComplete_mainDiag board (other s)).mpr hcond.2)
      (mem_mainDiag r c hcond.1))
  have hanti : ¬(r.val + c.val = 2 ∧ board 0 2 = symToCell (other s) ∧
      board 1 1 = symToCell (other s) ∧ board 2 0 = symToCell (other s)) :=
    fun hcond => hcell (lineComplete_mem board (other s) antiDiagLine
      ((lineComplete_antiDiag board (other s)).mpr hcond.2)
      (mem_antiDiag r c hcond.1))
  unfold checkWin
  rw [if_neg hrow, if_neg hcol, if_neg hmain, if_neg hanti]

/-- C3 witness: after the horizontal-win move by X at (0,2), no win is
reported for O from that cell. -/
theorem claim_c3_witness :
    checkWinCondition hwinBoard 0 2 (other PlayerSymbol.X) =
      some { won := false, winningCells := none } :=
  claim_c3_no_win_for_other hwinBoard 0 2 PlayerSymbol.X (by decide)

/-- C2 counterexample: on the board [["","",X],[X,X,X],["","",""]] the cell
(0,2) holds X, the full scan of all 8 lines finds a complete X line (the
middle row), yet the evaluator restricted to the lines through (0,2)
reports no win — the claimed equivalence fails under the claim's
precondition alone. -/
theorem claim_c2_counterexample :
    strayLineBoard 0 2 = symToCell PlayerSymbol.X ∧
    allLinesWin strayLineBoard PlayerSymbol.X = true ∧
    checkWinCondition strayLineBoard 0 2 PlayerSymbol.X =
      some { won := false, winningCells := none } := by
  refine ⟨by decide, by decide, by decide⟩

/-- C2 (amended): if the board before the move has no complete line of the
symbol and the move writes the symbol into the (previously empty) cell
(r, c), then checking only the lines through (r, c) returns a win exactly
when the full scan of all 8 lines finds a complete line of the symbol. -/
theorem claim_c2_restricted_scan_equivalence (board : Board) (r c : Fin 3)
    (s : PlayerSymbol) (_hempty : board r c = CellValue.empty)
    (hnowin : allLinesWin board s = false) :
    (checkWinCondition (setCell board r c (symToCell s)) r.val c.val s).map
        CheckResult.won =
      some (allLinesWin (setCell board r c (symToCell s)) s) := by
  rw [checkWinCondition_eq_checkWin, Option.map_some']
  congr 1
  by_cases hall : allLinesWin (setCell board r c (symToCell s)) s = true
  · rw [hall]
    obtain ⟨l, hl, hcompl⟩ :=
      (allLinesWin_iff (setCell board r c (symToCell s)) s).mp hall
    by_cases hmem : (r, c) ∈ l
    · rcases line_through_cases r c l hl hmem with hrow | hcol | hdiag | hanti
      · exact (checkWin_won_iff _ r c s).mpr (Or.inl (hrow ▸ hcompl))
      · exact (checkWin_won_iff _ r c s).mpr (Or.inr (Or.inl (hcol ▸ hcompl)))
      · exact (checkWin_won_iff _ r c s).mpr
          (Or.inr (Or.inr (Or.inl ⟨hdiag.1, hdiag.2 ▸ hcompl⟩)))
      · exact (checkWin_won_iff _ r c s).mpr
          (Or.inr (Or.inr (Or.inr ⟨hanti.1, hanti.2 ▸ hcompl⟩)))
    · exfalso
      rw [lineComplete_setCell_not_mem board r c (symToCell s) s l hmem]
        at hcompl
      have : allLinesWin board s = true :=
        (allLinesWin_iff board s).mpr ⟨l, hl, hcompl⟩
      rw [this] at hnowin
      cases hnowin
  · rw [Bool.not_eq_true] at hall
    rw [hall, Bool.eq_false_iff]
    intro hwon
    have hws : allLinesWin (setCell board r c (symToCell s)) s = true := by
      rcases (checkWin_won_iff _ r c s).mp hwon with hw | hw | hw | hw
      · exact (allLinesWin_iff _ s).mpr
          ⟨rowLine r, (candidate_mem_allLines r c).1, hw⟩
      · exact (allLinesWin_iff _ s).mpr
          ⟨colLine c, (candidate_mem_allLines r c).2.1, hw⟩
      · exact (allLinesWin_iff _ s).mpr
          ⟨mainDiagLine, (candidate_mem_allLines r c).2.2.1, hw.2⟩
      · exact (allLinesWin_iff _ s).mpr
          ⟨antiDiagLine, (candidate_mem_allLines r c).2.2.2, hw.2⟩
    rw [hws] at hall
    cases hall

/-- C2 witness: the amended equivalence at the horizontal-win move — X
plays the empty cell (0,2) of a board with no complete X line. -/
theorem claim_c2_witness :
    (checkWinCondition (setCell hwinBoardPre 0 2
        (symToCell PlayerSymbol.X)) (0 : Fin 3).val (2 : Fin 3).val
        PlayerSymbol.X).map CheckResult.won =
      some (allLinesWin (setCell hwinBoardPre 0 2
        (symToCell PlayerSymbol.X)) PlayerSymbol.X) :=
  claim_c2_restricted_scan_equivalence hwinBoardPre 0 2 PlayerSymbol.X
    (by decide) (by decide)

/-- C7: When no complete line of the symbol passes through the just-played
cell, evaluation yields Draw if all 9 cells are occupied and Ongoing
otherwise; in the draw scenario, O playing (2,2) on
[[X,O,X],[O,O,X],[O,X,""]] finishes the match with result Draw. -/
theorem claim_c7_draw_or_ongoing :
    (∀ (board : Board) (r c : Fin 3) (s : PlayerSymbol),
       (checkWin board r c s).won = false →
       evaluate board r.val c.val s =
         some (if boardFull board then EvalResult.draw
               else EvalResult.ongoing)) ∧
    (submitMove demoDrawPending PlayerSymbol.O 2 2 9).state.state =
      MatchState.FINISHED ∧
    (submitMove demoDrawPending PlayerSymbol.O 2 2 9).state.result =
      GameResult.DRAW := by
  refine ⟨?_, by decide, by decide⟩
  intro board r c s h
  unfold evaluate
  rw [checkWinCondition_eq_checkWin]
  simp only [h, Bool.false_eq_true, if_false]
  by_cases hb : boardFull board = true
  · simp [hb]
  · rw [Bool.not_eq_true] at hb
    simp [hb]

/-- C7 witness: the first move on the empty board leaves the game
Ongoing. -/
theorem claim_c7_witness :
    evaluate emptyBoard (0 : Fin 3).val (0 : Fin 3).val PlayerSymbol.X =
      some (if boardFull emptyBoard then EvalResult.draw
            else EvalResult.ongoing) :=
  claim_c7_draw_or_ongoing.1 emptyBoard 0 0 PlayerSymbol.X (by decide)

/-- C4 counterexample: an out-of-bounds move (row 5) submitted by the
participant not on turn is rejected with NotYourTurn, not OutOfBounds — the
turn check of §4.2 precedes the bounds check, so not every out-of-range
move is rejected with OutOfBounds. -/
theorem claim_c4_counterexample :
    (submitMove demoPlaying PlayerSymbol.O 5 0 0).reject =
      some Rejection.NotYourTurn ∧
    Rejection.NotYourTurn ≠ Rejection.OutOfBounds := by
  exact ⟨rfl, by decide⟩

/-- C4 (amended): apply fails with OutOfBounds outside [0,2]x[0,2], fails
with CellOccupied on a non-empty in-bounds target, and otherwise sets
exactly the target cell, leaving every other cell unchanged; submitMove
rejects an out-of-range move with OutOfBounds whenever the match is
Playing and the submitter is on turn (otherwise the earlier turn/terminal
checks of §4.2 fire first). -/
theorem claim_c4_apply_bounds :
    (∀ (board : Board) (row col : Nat) (s : PlayerSymbol),
       ¬(row ≤ 2 ∧ col ≤ 2) →
       apply board row col s = Except.error Rejection.OutOfBounds) ∧
    (∀ (board : Board) (r c : Fin 3) (s : PlayerSymbol),
       board r c ≠ CellValue.empty →
       apply board r.val c.val s = Except.error Rejection.CellOccupied) ∧
    (∀ (board : Board) (r c : Fin 3) (s : PlayerSymbol),
       board r c = CellValue.empty →
       apply board r.val c.val s =
         Except.ok (setCell board r c (symToCell s)) ∧
       setCell board r c (symToCell s) r c = symToCell s ∧
       ∀ i j, ¬(i = r ∧ j = c) →
         setCell board r c (symToCell s) i j = board i j) ∧
    (∀ (st : GameState) (s : PlayerSymbol) (row col : Nat) (now : Int),
       st.state = MatchState.PLAYING → s = st.currentPlayer →
       ¬(row ≤ 2 ∧ col ≤ 2) →
       (submitMove st s row col now).reject = some Rejection.OutOfBounds ∧
       (submitMove st s row col now).state = st) := by
  refine ⟨apply_oob, apply_occupied, ?_, ?_⟩
  · intro board r c s h
    refine ⟨apply_empty board r c s h, by simp [setCell], ?_⟩
    intro i j hij
    exact setCell_other_cell board r c (symToCell s) hij
  · intro st s row col now hp hturn hoob
    unfold submitMove
    rw [if_neg (by rw [hp]; rintro (h | h) <;> exact MatchState.noConfusion h)]
    rw [if_neg (by rw [hp, hturn]; rintro (h | h) <;> exact h rfl)]
    rw [apply_oob st.board row col s hoob]
    exact ⟨rfl, rfl⟩

/-- C4 witness: an out-of-range move by the on-turn participant of a
Playing match is rejected with OutOfBounds and leaves the state
unchanged. -/
theorem claim_c4_witness :
    ¬((5 : Nat) ≤ 2 ∧ (0 : Nat) ≤ 2) ∧
    (submitMove demoPlaying PlayerSymbol.X 5 0 0).reject =
      some Rejection.OutOfBounds ∧
    (submitMove demoPlaying PlayerSymbol.X 5 0 0).state = demoPlaying :=
  ⟨by decide,
   claim_c4_apply_bounds.2.2.2 demoPlaying PlayerSymbol.X 5 0 0 rfl rfl
     (by decide)⟩

/-- C5: Once the phase is Finished or Abandoned, every further submitMove
or checkTimeout returns the state unchanged with rejection
MatchAlreadyFinished, no broadcast and no Result Sink call. -/
theorem claim_c5_terminal_idempotent (st : GameState)
    (h : st.state = MatchState.FINISHED ∨ st.state = MatchState.ABANDONED)
    (sym : PlayerSymbol) (row col : Nat) (now deadline : Int) :
    submitMove st sym row col now =
      { state := st, reject := some Rejection.MatchAlreadyFinished,
        broadcast := none, sink := none } ∧
    checkTimeout st now deadline =
      { state := st, reject := some Rejection.MatchAlreadyFinished,
        broadcast := none, sink := none } := by
  constructor
  · unfold submitMove
    rw [if_pos h]
  · unfold checkTimeout
    rw [if_pos h]

/-- C5 witness: the terminal-phase rejection on a concrete finished
match. -/
theorem claim_c5_witness :
    submitMove demoFinished PlayerSymbol.X 0 0 7 =
      { state := demoFinished, reject := some Rejection.MatchAlreadyFinished,
        broadcast := none, sink := none } ∧
    checkTimeout demoFinished 7 30 =
      { state := demoFinished, reject := some Rejection.MatchAlreadyFinished,
        broadcast := none, sink := none } :=
  claim_c5_terminal_idempotent demoFinished (Or.inl rfl) PlayerSymbol.X 0 0
    7 30

/-- C6: On a Playing state whose deadline has elapsed, checkTimeout
finishes the match with the win of the symbol not on turn, records no
winning line, and tags the result WinByForfeit, distinct from
WinByLine. -/
theorem claim_c6_timeout_forfeit (st : GameState) (now deadline : Int)
    (hp : st.state = MatchState.PLAYING)
    (hd : now - st.lastMoveTime ≥ deadline) :
    (checkTimeout st now deadline).state.state = MatchState.FINISHED ∧
    (checkTimeout st now deadline).state.result =
      winResultOf (other st.currentPlayer) ∧
    (checkTimeout st now deadline).state.winnerCells = none ∧
    (checkTimeout st now deadline).sink =
      some { tag := ResultTag.WinByForfeit,
             winner := some (other st.currentPlayer) } ∧
    ResultTag.WinByForfeit ≠ ResultTag.WinByLine := by
  unfold checkTimeout
  rw [if_neg (by rw [hp]; rintro (h | h) <;> exact MatchState.noConfusion h)]
  rw [if_pos ⟨hp, hd⟩]
  exact ⟨rfl, rfl, rfl, rfl, by decide⟩

/-- C6 witness: the timeout scenario — O on turn, the deadline exceeded by
one second, X wins by forfeit. -/
theorem claim_c6_witness :
    (checkTimeout demoPlayingO 131 30).state.state = MatchState.FINISHED ∧
    (checkTimeout demoPlayingO 131 30).state.result =
      winResultOf (other PlayerSymbol.O) ∧
    (checkTimeout demoPlayingO 131 30).state.winnerCells = none ∧
    (checkTimeout demoPlayingO 131 30).sink =
      some { tag := ResultTag.WinByForfeit,
             winner := some (other PlayerSymbol.O) } ∧
    ResultTag.WinByForfeit ≠ ResultTag.WinByLine :=
  claim_c6_timeout_forfeit demoPlayingO 131 30 rfl (by decide)

/-- C8: Every rejection leaves the match state unchanged, is reported only
to the submitter (no broadcast) and triggers no Result Sink call; on the
client, a MOVE_REJECTED message sets only the error string and leaves the
held game state untouched. -/
theorem claim_c8_rejection_atomic :
    (∀ (st : GameState) (sym : PlayerSymbol) (row col : Nat) (now : Int)
       (e : Rejection),
       (submitMove st sym row col now).reject = some e →
       (submitMove st sym row col now).state = st ∧
       (submitMove st sym row col now).broadcast = none ∧
       (submitMove st sym row col now).sink = none) ∧
    (∀ (st : GameState) (now deadline : Int) (e : Rejection),
       (checkTimeout st now deadline).reject = some e →
       (checkTimeout st now deadline).state = st ∧
       (checkTimeout st now deadline).broadcast = none ∧
       (checkTimeout st now deadline).sink = none) ∧
    (∀ (cs : ClientState) (s : String),
       handleMessage cs { type := ServerMessageType.MOVE_REJECTED,
                          data := MessageData.textData s } =
         { gameState := cs.gameState, error := some s }) := by
  refine ⟨?_, ?_, ?_⟩
  · intro st sym row col now e h
    rcases submitMove_shape st sym row col now with ⟨e2, heq⟩ | hnone
    · rw [heq]
      exact ⟨rfl, rfl, rfl⟩
    · rw [h] at hnone
      cases hnone
  · intro st now deadline e h
    rcases checkTimeout_shape st now deadline with ⟨e2, heq⟩ | hnone
    · rw [heq]
      exact ⟨rfl, rfl, rfl⟩
    · rw [h] at hnone
      cases hnone
  · intro cs s
    rfl

/-- C8 witness: atomicity of a concrete rejection on a finished match, and
the client MOVE_REJECTED update on a concrete client state. -/
theorem claim_c8_witness :
    ((submitMove demoFinished PlayerSymbol.X 0 0 7).state = demoFinished ∧
     (submitMove demoFinished PlayerSymbol.X 0 0 7).broadcast = none ∧
     (submitMove demoFinished PlayerSymbol.X 0 0 7).sink = none) ∧
    ((checkTimeout demoFinished 7 30).state = demoFinished ∧
     (checkTimeout demoFinished 7 30).broadcast = none ∧
     (checkTimeout demoFinished 7 30).sink = none) ∧
    handleMessage { gameState := none, error := none }
        { type := ServerMessageType.MOVE_REJECTED,
          data := MessageData.textData demoText } =
      { gameState := none, error := some demoText } :=
  ⟨claim_c8_rejection_atomic.1 demoFinished PlayerSymbol.X 0 0 7
     Rejection.MatchAlreadyFinished rfl,
   claim_c8_rejection_atomic.2.1 demoFinished 7 30
     Rejection.MatchAlreadyFinished rfl,
   claim_c8_rejection_atomic.2.2 { gameState := none, error := none }
     demoText⟩

/-- C10: GameBoard's cell-click handler invokes onCellClick exactly when
the board is not disabled, the match is PLAYING with the clicking user's
id equal to the on-turn player's id, and the clicked cell is empty. -/
theorem claim_c10_cell_click_guard (gs : GameState)
    (currentUserId : Option String) (disabled : Bool) (row col : Fin 3) :
    handleCellClick gs currentUserId disabled row col = true ↔
      (disabled = false ∧ gs.state = MatchState.PLAYING ∧
       (∃ p, gs.players gs.currentPlayer = some p ∧
          currentUserId = some p.userId) ∧
       gs.board row col = CellValue.empty) := by
  cases disabled
  · rcases hp : gs.players gs.currentPlayer with _ | p
    · simp [handleCellClick, isMyTurn, jsStrictEq, hp]
    · rcases currentUserId with _ | u
      · simp [handleCellClick, isMyTurn, jsStrictEq, hp]
      · by_cases hu : p.userId = u
        · by_cases hs : gs.state = MatchState.PLAYING
          · by_cases hcell : gs.board row col = CellValue.empty
            · simp [handleCellClick, isMyTurn, jsStrictEq, hp, hu, hs, hcell]
            · simp [handleCellClick, isMyTurn, jsStrictEq, hp, hu, hs, hcell]
          · simp [handleCellClick, isMyTurn, jsStrictEq, hp, hu, hs]
        · simp [handleCellClick, isMyTurn, jsStrictEq, hp, hu]
          exact fun _ huu => absurd huu.symm hu
  · simp [handleCellClick]

end TicTacToe
